import Mathlib

/-!
Verification of the address-resolution, comparable-selection, outlier-filter
and CSV-merge logic of the PriceBot repository.

The development is a shallow embedding of the relevant Python sources:
  * `CzyszczenieAdresu.py`  (address back-fill against TERYT / court-area tables)
  * `automat.py` / `modules/automat.py`  (comparable selection, IQR outlier fence,
    numeric parsing of price/area strings)
  * `scalanie.py`  (merge of per-region CSV files, repair of split numeric fields)

Text is modelled as Lean `String` / `List Char`.  Python's Unicode-wide
case-mapping, whitespace and digit classification are modelled on the alphabet
actually exercised by this repository: ASCII plus the Polish diacritic letters
and the characters (non-breaking space, superscript two) that the sources
mention explicitly.  Machine floats are modelled as exact rationals `ℚ`.
-/

namespace PriceBot

/-- Whitespace characters recognised by the model of Python's `str.strip` /
`str.split` (ASCII whitespace plus the non-breaking space, which Python also
treats as whitespace). -/
def isSpaceChar (c : Char) : Bool :=
  c = ' ' || c = '\t' || c = '\n' || c = '\r' || c = '\x0b' || c = '\x0c' || c = '\xa0'

/-- Model of Python `str.strip()` on a character list: drop whitespace from
both ends. -/
def stripL (l : List Char) : List Char :=
  ((l.dropWhile isSpaceChar).reverse.dropWhile isSpaceChar).reverse

/-- Model of Python `str.lower()` on one character, for the alphabet used by
the repository (ASCII letters and Polish diacritics). -/
def pyLower (c : Char) : Char :=
  if c = 'A' then 'a' else if c = 'B' then 'b' else if c = 'C' then 'c'
  else if c = 'D' then 'd' else if c = 'E' then 'e' else if c = 'F' then 'f'
  else if c = 'G' then 'g' else if c = 'H' then 'h' else if c = 'I' then 'i'
  else if c = 'J' then 'j' else if c = 'K' then 'k' else if c = 'L' then 'l'
  else if c = 'M' then 'm' else if c = 'N' then 'n' else if c = 'O' then 'o'
  else if c = 'P' then 'p' else if c = 'Q' then 'q' else if c = 'R' then 'r'
  else if c = 'S' then 's' else if c = 'T' then 't' else if c = 'U' then 'u'
  else if c = 'V' then 'v' else if c = 'W' then 'w' else if c = 'X' then 'x'
  else if c = 'Y' then 'y' else if c = 'Z' then 'z'
  else if c = 'Ą' then 'ą' else if c = 'Ć' then 'ć' else if c = 'Ę' then 'ę'
  else if c = 'Ł' then 'ł' else if c = 'Ń' then 'ń' else if c = 'Ó' then 'ó'
  else if c = 'Ś' then 'ś' else if c = 'Ź' then 'ź' else if c = 'Ż' then 'ż'
  else c

/-- The lower-to-upper character table of the model of Python `str.upper()`
(ASCII letters and Polish diacritics). -/
def upPairs : List (Char × Char) :=
  [('a', 'A'), ('b', 'B'), ('c', 'C'), ('d', 'D'), ('e', 'E'), ('f', 'F'),
    ('g', 'G'), ('h', 'H'), ('i', 'I'), ('j', 'J'), ('k', 'K'), ('l', 'L'),
    ('m', 'M'), ('n', 'N'), ('o', 'O'), ('p', 'P'), ('q', 'Q'), ('r', 'R'),
    ('s', 'S'), ('t', 'T'), ('u', 'U'), ('v', 'V'), ('w', 'W'), ('x', 'X'),
    ('y', 'Y'), ('z', 'Z'),
    ('ą', 'Ą'), ('ć', 'Ć'), ('ę', 'Ę'), ('ł', 'Ł'), ('ń', 'Ń'), ('ó', 'Ó'),
    ('ś', 'Ś'), ('ź', 'Ź'), ('ż', 'Ż')]

/-- Model of Python `str.upper()` on one character (same alphabet);
characters outside the table are left unchanged. -/
def pyUpper (c : Char) : Char :=
  ((upPairs.find? (fun p => p.1 == c)).map Prod.snd).getD c

/-- Every property that holds of each table pair and of fixed characters
holds of `pyUpper`. -/
theorem pyUpper_spec (P : Char → Char → Prop)
    (hpairs : ∀ p ∈ upPairs, P p.1 p.2) (hid : ∀ c, P c c) (c : Char) :
    P c (pyUpper c) := by
  unfold pyUpper
  rcases hfind : upPairs.find? (fun p => p.1 == c) with _ | p
  · simp only [hfind, Option.map_none', Option.getD_none]
    exact hid c
  · have hmem := List.mem_of_find?_eq_some hfind
    have heq : p.1 = c := by simpa using List.find?_some hfind
    simp only [hfind, Option.map_some', Option.getD_some]
    rw [← heq]
    exact hpairs p hmem

/-- Model of stripping combining marks after NFKD decomposition
(`unicodedata.normalize("NFKD", s)` followed by dropping combining
characters), restricted to lower-case Polish letters as produced by `pyLower`.
Note that `ł` has no canonical decomposition, so Python keeps it unchanged;
the model does the same. -/
def deaccent (c : Char) : Char :=
  if c = 'ą' then 'a' else if c = 'ć' then 'c' else if c = 'ę' then 'e'
  else if c = 'ń' then 'n' else if c = 'ó' then 'o' else if c = 'ś' then 's'
  else if c = 'ź' then 'z' else if c = 'ż' then 'z'
  else c

/-- Model of the `while "  " in s: s = s.replace("  ", " ")` loop of
`CzyszczenieAdresu._norm`: collapse every run of space characters to a single
space (the loop's fixed point). -/
def collapseSpaces : List Char → List Char
  | [] => []
  | [c] => [c]
  | a :: b :: rest =>
    if a = ' ' ∧ b = ' ' then collapseSpaces (b :: rest)
    else a :: collapseSpaces (b :: rest)

/-- Split a character list on whitespace runs, dropping empty words
(model of Python `str.split()` with no argument). -/
def splitWS (l : List Char) : List (List Char) :=
  (l.foldr
    (fun c acc =>
      if isSpaceChar c then [] :: acc
      else
        match acc with
        | [] => [[c]]
        | w :: ws => (c :: w) :: ws)
    []).filter (fun w => ¬ w.isEmpty)

/-- Join words with single spaces (model of `" ".join(words)`). -/
def joinSpace (ws : List (List Char)) : List Char :=
  List.intercalate [' '] ws

/-- Python `ch.isdigit()` on the repository's alphabet: ASCII digits and the
superscript two that occurs in the `m²` unit marker. -/
def pyIsDigit (c : Char) : Bool :=
  c.isDigit || c = '²'

/-- Numeric value of an ASCII digit list. -/
def digitsVal (l : List Char) : ℕ :=
  l.foldl (fun a c => a * 10 + (c.toNat - 48)) 0

/-- Model of Python `float(s)` on strings over the alphabet `{0-9, '.', '-'}`
(the only characters surviving the filters in `_float` / `_to_float_maybe`):
an optional single leading minus, then digits with at most one dot and at
least one digit.  Everything else raises `ValueError`, i.e. yields `none`. -/
def pyFloatMag (l : List Char) : Option ℚ :=
  let ip := l.takeWhile Char.isDigit
  let r := l.drop ip.length
  match r with
  | [] => if ip.isEmpty then none else some (digitsVal ip)
  | '.' :: fr =>
    if (¬ ip.isEmpty ∨ ¬ fr.isEmpty) ∧ fr.all Char.isDigit then
      some ((digitsVal ip : ℚ) + (digitsVal fr : ℚ) / (10 : ℚ) ^ fr.length)
    else none
  | _ => none

/-- Python `float(s) if s else None`, restricted as in `pyFloatMag`. -/
def pyFloatQ (l : List Char) : Option ℚ :=
  match l with
  | [] => none
  | '-' :: r => (pyFloatMag r).map (fun q => -q)
  | _ => pyFloatMag l

/-- Left-to-right, non-overlapping substring replacement with explicit fuel
(model of Python `str.replace`); the fuel is instantiated with the input
length, which is always sufficient. -/
def replaceLAux (pat rep : List Char) : ℕ → List Char → List Char
  | 0, l => l
  | _, [] => []
  | fuel + 1, c :: rest =>
    if ¬ pat.isEmpty ∧ pat.isPrefixOf (c :: rest) then
      rep ++ replaceLAux pat rep fuel (List.drop pat.length (c :: rest))
    else c :: replaceLAux pat rep fuel rest

/-- Model of Python `str.replace(pat, rep)` on character lists. -/
def replaceL (pat rep l : List Char) : List Char :=
  replaceLAux pat rep l.length l

/-! ## CzyszczenieAdresu.py — address back-fill -/

namespace Czysz

/-- `CzyszczenieAdresu._norm`: strip, lower-case, drop diacritics (NFKD minus
combining marks), collapse internal space runs. -/
def norm (s : String) : List Char :=
  collapseSpaces (((stripL s.data).map pyLower).map deaccent)

/-- The generic qualifier words ignored by `_place_base`
(`PLACE_GENERIC_WORDS`). -/
def placeGenericWords : List (List Char) :=
  ["kolonia".data, "kol.".data, "osiedle".data, "os.".data, "nowa".data, "stara".data]

/-- `CzyszczenieAdresu._place_base`: normalized name with generic qualifier
words removed; falls back to the plain normalized name when nothing is left. -/
def place_base (s : String) : List Char :=
  let sNorm := norm s
  if sNorm.isEmpty then []
  else
    let words := (splitWS sNorm).filter (fun w => ¬ placeGenericWords.contains w)
    if words.isEmpty then sNorm else joinSpace words

/-- `CzyszczenieAdresu._is_missing`: empty after stripping, or the `---`
sentinel.  (`None`/`NaN` cells are represented as `""` in the model, as the
loaders apply `fillna("")`.) -/
def is_missing (s : String) : Prop :=
  stripL s.data = [] ∨ stripL s.data = ['-', '-', '-']

instance (s : String) : Decidable (is_missing s) := by
  unfold is_missing; infer_instance

/-- A row of a reference source (TERYT or `obszar_sadow.xlsx`): the five raw
address columns.  The normalized helper columns (`woj_n`, …, `miej_base`,
`gmi_base`) added by the loaders are recomputed on the fly via `norm` /
`place_base`, which is exactly how the loaders derive them. -/
structure SrcRow where
  woj : String
  pow : String
  gmi : String
  mie : String
  dzi : String
deriving DecidableEq, Repr

/-- A report row: five address columns plus the three derived value columns. -/
structure Row where
  woj : String
  pow : String
  gmi : String
  mie : String
  dzi : String
  v1 : String
  v2 : String
  v3 : String
deriving DecidableEq, Repr

/-- The five address columns (`ADDR_COLS`). -/
inductive AddrField | woj | pow | gmi | mie | dzi
deriving DecidableEq, Repr

def getAddr : AddrField → Row → String
  | .woj, r => r.woj
  | .pow, r => r.pow
  | .gmi, r => r.gmi
  | .mie, r => r.mie
  | .dzi, r => r.dzi

def getSrc : AddrField → SrcRow → String
  | .woj, t => t.woj
  | .pow, t => t.pow
  | .gmi, t => t.gmi
  | .mie, t => t.mie
  | .dzi, t => t.dzi

/-- `pandas.Series.unique` on string values (no NaN present after
`fillna("")`): distinct values in order of first occurrence. -/
def uniqueFirst (l : List String) : List String :=
  l.foldl (fun acc x => if x ∈ acc then acc else acc ++ [x]) []

/-- Number of occurrences of `v` in `l`. -/
def countEq (l : List String) (v : String) : ℕ :=
  (l.filter (fun x => x = v)).length

/-- Lexicographic (code-point) comparison of strings, used to model the
sorted order of `pandas.Series.mode`. -/
def charListLt : List Char → List Char → Bool
  | [], [] => false
  | [], _ :: _ => true
  | _ :: _, [] => false
  | a :: as, b :: bs =>
    if a.toNat < b.toNat then true
    else if b.toNat < a.toNat then false
    else charListLt as bs

/-- `pandas.Series.mode().iloc[0]` on a list of strings: a most frequent
value, ties broken by the smallest in sorted order; `none` on an empty list. -/
def modeList (l : List String) : Option String :=
  (uniqueFirst l).foldl
    (fun acc v =>
      match acc with
      | none => some v
      | some w =>
        if countEq l v > countEq l w
            ∨ (countEq l v = countEq l w ∧ charListLt v.data w.data) then
          some v
        else some w)
    none

/-- Step 6 of `_fill_from_source`, for one column: fill a missing field when
the candidate subset carries exactly one distinct value and that value is a
non-empty (Python-truthy) string. -/
def fillField (cur : String) (vals : List String) : String :=
  if is_missing cur then
    match uniqueFirst vals with
    | [v] => if v ≠ "" then v else cur
    | _ => cur
  else cur

/-- Step 6 of `_fill_from_source` over all five address columns.  The Python
loop mutates the row column by column, but each column's condition only reads
that same column, so the simultaneous update is equivalent. -/
def fillMissingAll (r : Row) (s : List SrcRow) : Row :=
  { r with
    woj := fillField r.woj (s.map (·.woj))
    pow := fillField r.pow (s.map (·.pow))
    gmi := fillField r.gmi (s.map (·.gmi))
    mie := fillField r.mie (s.map (·.mie))
    dzi := fillField r.dzi (s.map (·.dzi)) }

/-- Step 5a of `_fill_from_source`: when the row has a `Gmina` but no
`Miejscowość`, back-fill `Miejscowość` with the most frequent value of the
candidate subset. -/
def modeStep (r : Row) (s : List SrcRow) : Row :=
  if is_missing r.mie ∧ ¬ is_missing r.gmi then
    match modeList (s.map (·.mie)) with
    | some m => { r with mie := m }
    | none => r
  else r

/-- Guarded narrowing used at steps 2 and 3 of `_fill_from_source`: apply the
filter, but keep the previous subset when the filter result is empty. -/
def narrowKeep (p : SrcRow → Bool) (s : List SrcRow) : List SrcRow :=
  let sub := s.filter p
  if sub.isEmpty then s else sub

/-- Step 1 of `_fill_from_source`: the province narrowing.  Note that unlike
every later step it is applied unconditionally, with no emptiness guard. -/
def narrowWoj (wojn : List Char) (s : List SrcRow) : List SrcRow :=
  if ¬ wojn.isEmpty then s.filter (fun t => decide (norm t.woj = wojn)) else s

/-- Step 2: county narrowing, guarded. -/
def narrowPow (pown : List Char) (s : List SrcRow) : List SrcRow :=
  if ¬ pown.isEmpty ∧ ¬ s.isEmpty then
    narrowKeep (fun t => decide (norm t.pow = pown)) s
  else s

/-- Step 3: district narrowing, guarded. -/
def narrowDzi (dzn : List Char) (s : List SrcRow) : List SrcRow :=
  if ¬ dzn.isEmpty ∧ ¬ s.isEmpty then
    narrowKeep (fun t => decide (norm t.dzi = dzn)) s
  else s

/-- Step 4: city narrowing — exact normalized name first, then the base key
(without generic qualifier words); keep the previous subset when both fail. -/
def narrowMie (mjn mjbase : List Char) (s : List SrcRow) : List SrcRow :=
  if (¬ mjn.isEmpty ∨ ¬ mjbase.isEmpty) ∧ ¬ s.isEmpty then
    let sub := if ¬ mjn.isEmpty then s.filter (fun t => decide (norm t.mie = mjn)) else s
    let sub :=
      if sub.isEmpty ∧ ¬ mjbase.isEmpty then
        s.filter (fun t => decide (place_base t.mie = mjbase))
      else sub
    if ¬ sub.isEmpty then sub else s
  else s

/-- Step 5: municipality narrowing — exact normalized name, then base key. -/
def narrowGmi (gmin gmibase : List Char) (s : List SrcRow) : List SrcRow :=
  if (¬ gmin.isEmpty ∨ ¬ gmibase.isEmpty) ∧ ¬ s.isEmpty then
    let sub := if ¬ gmin.isEmpty then s.filter (fun t => decide (norm t.gmi = gmin)) else s
    let sub :=
      if sub.isEmpty ∧ ¬ gmibase.isEmpty then
        s.filter (fun t => decide (place_base t.gmi = gmibase))
      else sub
    if ¬ sub.isEmpty then sub else s
  else s

/-- Base key of the row's city, as computed inside `_fill_from_source`
(empty when the field is missing). -/
def rowMieBase (r : Row) : List Char :=
  if ¬ is_missing r.mie then place_base r.mie else []

/-- Base key of the row's municipality, as computed inside
`_fill_from_source`. -/
def rowGmiBase (r : Row) : List Char :=
  if ¬ is_missing r.gmi then place_base r.gmi else []

/-- The candidate subset produced by the narrowing phase of
`_fill_from_source` (steps 1–5). -/
def narrowedSubset (r : Row) (df : List SrcRow)
    (wojn pown gmin mjn dzn : List Char) : List SrcRow :=
  narrowGmi gmin (rowGmiBase r)
    (narrowMie mjn (rowMieBase r)
      (narrowDzi dzn
        (narrowPow pown
          (narrowWoj wojn df))))

/-- `CzyszczenieAdresu._fill_from_source`: narrow the source table by the
row's known fields, then back-fill the row's missing fields. -/
def fill_from_source (r : Row) (df : List SrcRow)
    (wojn pown gmin mjn dzn : List Char) : Row :=
  if df.isEmpty then r
  else if (narrowedSubset r df wojn pown gmin mjn dzn).isEmpty then r
  else
    fillMissingAll (modeStep r (narrowedSubset r df wojn pown gmin mjn dzn))
      (narrowedSubset r df wojn pown gmin mjn dzn)

/-- Any of the five address columns missing. -/
def anyMissing (r : Row) : Prop :=
  is_missing r.woj ∨ is_missing r.pow ∨ is_missing r.gmi
    ∨ is_missing r.mie ∨ is_missing r.dzi

instance (r : Row) : Decidable (anyMissing r) := by
  unfold anyMissing; infer_instance

/-- `CzyszczenieAdresu._enrich_row`: normalize the row's known fields once,
fill from TERYT, then — if gaps remain and the court-area table is non-empty —
fill from the court-area table with the same keys. -/
def enrich_row (row : Row) (teryt sad : List SrcRow) : Row :=
  let wojn := if ¬ is_missing row.woj then norm row.woj else []
  let pown := if ¬ is_missing row.pow then norm row.pow else []
  let gmin := if ¬ is_missing row.gmi then norm row.gmi else []
  let mjn := if ¬ is_missing row.mie then norm row.mie else []
  let dzn := if ¬ is_missing row.dzi then norm row.dzi else []
  let r1 := fill_from_source row teryt wojn pown gmin mjn dzn
  if ¬ sad.isEmpty ∧ anyMissing r1 then
    fill_from_source r1 sad wojn pown gmin mjn dzn
  else r1

/-- The manual-review placeholder written by `clean_report`. -/
def placeholder : String := "Proszę dopisz manualnie"

/-- The pre-pass of `clean_report`: every `---` (or otherwise missing) value
in an address column is replaced by the empty string. -/
def blankRow (r : Row) : Row :=
  { r with
    woj := if is_missing r.woj then "" else r.woj
    pow := if is_missing r.pow then "" else r.pow
    gmi := if is_missing r.gmi then "" else r.gmi
    mie := if is_missing r.mie then "" else r.mie
    dzi := if is_missing r.dzi then "" else r.dzi }

/-- `clean_report`'s unresolved-row pass: rows still missing any address
field get the manual-review placeholder in all three value columns. -/
def placeholderRow (r : Row) : Row :=
  if anyMissing r then { r with v1 := placeholder, v2 := placeholder, v3 := placeholder }
  else r

/-- Python `str.upper()` on a whole string. -/
def upperStr (s : String) : String :=
  ⟨s.data.map pyUpper⟩

/-- `clean_report`'s final pass: upper-case the five address columns. -/
def upperRowAddr (r : Row) : Row :=
  { r with
    woj := upperStr r.woj
    pow := upperStr r.pow
    gmi := upperStr r.gmi
    mie := upperStr r.mie
    dzi := upperStr r.dzi }

/-- The per-row transformation performed by `clean_report` between reading
and writing the report: blank the sentinels, enrich from both sources, mark
unresolved rows, upper-case the address columns. -/
def cleanPerRow (teryt sad : List SrcRow) (r : Row) : Row :=
  upperRowAddr (placeholderRow (enrich_row (blankRow r) teryt sad))

/-- The whole-table core of `clean_report` (rows are processed independently
and in order). -/
def cleanProcess (teryt sad : List SrcRow) (tbl : List Row) : List Row :=
  tbl.map (cleanPerRow teryt sad)

end Czysz

/-! ## automat.py / modules/automat.py — comparable selection, IQR fence,
numeric parsing -/

namespace Automat

/-- `automat._float` / `modules.automat._to_float_maybe`: strip the unit
markers (in source order), drop spaces and non-breaking spaces, turn the
decimal comma into a dot, keep only digit/dot/minus characters, then parse
with Python `float`, with any failure mapped to `none`. -/
def floatQ (s : String) : Option ℚ :=
  let l := s.data
  let l := replaceL "m²".data [] l
  let l := replaceL "m2".data [] l
  let l := replaceL "zł/m²".data [] l
  let l := replaceL "zł/m2".data [] l
  let l := replaceL "zł".data [] l
  let l := (l.filter (fun c => c ≠ ' ' && c ≠ '\xa0')).map (fun c => if c = ',' then '.' else c)
  let l := l.filter (fun c => pyIsDigit c || c = '.' || c = '-')
  pyFloatQ l

/-- A row of the reference price table `Polska.xlsx`.  The fuzzy column
lookup (`_find`) of the source resolves to these fixed fields; `metry` and
`cena` hold the raw cell text of the area and price-per-area columns. -/
structure PlRow where
  wojewodztwo : String
  powiat : String
  gmina : String
  miejscowosc : String
  dzielnica : String
  ulica : String
  metry : String
  cena : String
deriving DecidableEq, Repr

/-- The normalization used by the location-equality masks of `run_automat`
(`eq`): strip and lower-case (diacritics are kept). -/
def eqNormL (s : String) : List Char :=
  (stripL s.data).map pyLower

/-- One location-equality mask (`eq` in `run_automat`, `_eq_mask` in
`modules/automat.py`): vacuously true when the row's value is blank,
otherwise stripped-lower-cased equality. -/
def eqB (v field : String) : Bool :=
  if (stripL v.data).isEmpty then true else decide (eqNormL field = eqNormL v)

/-- Lower area bound: `max(0, val_area - delta)` with `delta = abs(margin)`. -/
def loQ (A m : ℚ) : ℚ := max 0 (A - |m|)

/-- Upper area bound: `val_area + delta`. -/
def hiQ (A m : ℚ) : ℚ := A + |m|

/-- The area mask: the row's area cell parses and lies inside the window.
(A `None`/NaN parse compares false in pandas, excluding the row.) -/
def areaOkB (lo hi : ℚ) (r : PlRow) : Bool :=
  match floatQ r.metry with
  | some a => decide (lo ≤ a ∧ a ≤ hi)
  | none => false

/-- The full (direct, non-fallback) match of `run_automat`: area window plus
equality on province, county, municipality, city, and — when present on the
report row — district and street. -/
def fullPred (A m : ℚ) (woj pow gmi mia dzl uli : String) (r : PlRow) : Bool :=
  areaOkB (loQ A m) (hiQ A m) r
    && eqB woj r.wojewodztwo
    && eqB pow r.powiat
    && eqB gmi r.gmina
    && eqB mia r.miejscowosc
    && (if dzl ≠ "" then eqB dzl r.dzielnica else true)
    && (if uli ≠ "" then eqB uli r.ulica else true)

/-- First fallback (street): area window, province, city, district when
present, street.  County and municipality are dropped — province is kept. -/
def fb1Pred (A m : ℚ) (woj mia dzl uli : String) (r : PlRow) : Bool :=
  areaOkB (loQ A m) (hiQ A m) r
    && eqB woj r.wojewodztwo
    && eqB mia r.miejscowosc
    && (if dzl ≠ "" then eqB dzl r.dzielnica else true)
    && eqB uli r.ulica

/-- Second fallback (district): area window, province, city, district. -/
def fb2Pred (A m : ℚ) (woj mia dzl : String) (r : PlRow) : Bool :=
  areaOkB (loQ A m) (hiQ A m) r
    && eqB woj r.wojewodztwo
    && eqB mia r.miejscowosc
    && eqB dzl r.dzielnica

/-- Third fallback (city): area window, province, city. -/
def fb3Pred (A m : ℚ) (woj mia : String) (r : PlRow) : Bool :=
  areaOkB (loQ A m) (hiQ A m) r
    && eqB woj r.wojewodztwo
    && eqB mia r.miejscowosc

/-- The fallback filter the claim describes for a row with a street: area
window plus city + district + street only, with no province requirement.
This follows the claim's words, for comparison with the source's `fb1Pred`. -/
def claimFb1Pred (A m : ℚ) (mia dzl uli : String) (r : PlRow) : Bool :=
  areaOkB (loQ A m) (hiQ A m) r
    && eqB mia r.miejscowosc
    && eqB dzl r.dzielnica
    && eqB uli r.ulica

/-- The comparable-selection cascade of `run_automat` (lines 111–138):
full match, then the street fallback, then the district fallback, then the
city-only fallback. -/
def selectRows (tbl : List PlRow) (A m : ℚ)
    (woj pow gmi mia dzl uli : String) : List PlRow :=
  let sel0 := tbl.filter (fullPred A m woj pow gmi mia dzl uli)
  let sel1 := if sel0 = [] ∧ uli ≠ "" then tbl.filter (fb1Pred A m woj mia dzl uli) else sel0
  let sel2 := if sel1 = [] ∧ dzl ≠ "" then tbl.filter (fb2Pred A m woj mia dzl) else sel1
  if sel2 = [] ∧ mia ≠ "" then tbl.filter (fb3Pred A m woj mia) else sel2

/-- Insertion sort on rationals (ascending), modelling the sort performed
inside `numpy.nanpercentile`. -/
def insertSorted (x : ℚ) : List ℚ → List ℚ
  | [] => [x]
  | y :: ys => if x ≤ y then x :: y :: ys else y :: insertSorted x ys

def sortQ : List ℚ → List ℚ
  | [] => []
  | x :: xs => insertSorted x (sortQ xs)

/-- `numpy.nanpercentile(xs, q)` with the default linear interpolation, on a
list without NaNs: `h = (n-1)·q/100`, interpolate between the floor and the
next sorted element. -/
def percQ (xs : List ℚ) (q : ℚ) : ℚ :=
  let ys := sortQ xs
  match ys with
  | [] => 0
  | _ =>
    let n := ys.length
    let h : ℚ := ((n : ℚ) - 1) * q / 100
    let i : ℕ := h.floor.toNat
    let a := ys.getD i 0
    let b := ys.getD (i + 1) a
    a + (h - (i : ℚ)) * (b - a)

/-- Drop the selected rows whose price cell does not parse
(`sel = sel[P.notna()]`). -/
def dropBadPrices (sel : List PlRow) : List PlRow :=
  sel.filter (fun r => (floatQ r.cena).isSome)

/-- The parsed price-per-area values of a selection. -/
def pricesOf (sel : List PlRow) : List ℚ :=
  sel.filterMap (fun r => floatQ r.cena)

/-- Lower IQR fence `Q1 - 1.5·(Q3 - Q1)` of a price sample. -/
def fenceLo (P : List ℚ) : ℚ :=
  percQ P 25 - (3 / 2 : ℚ) * (percQ P 75 - percQ P 25)

/-- Upper IQR fence `Q3 + 1.5·(Q3 - Q1)` of a price sample. -/
def fenceHi (P : List ℚ) : ℚ :=
  percQ P 75 + (3 / 2 : ℚ) * (percQ P 75 - percQ P 25)

/-- The outlier-removal step of `run_automat` (lines 144–154): drop
non-numeric prices; when at least 4 numeric samples exist, keep only rows
whose price lies within the IQR fence computed from the pre-filter sample. -/
def iqrStep (sel : List PlRow) : List PlRow :=
  let s1 := dropBadPrices sel
  let P := pricesOf s1
  if 4 ≤ P.length then
    s1.filter (fun r =>
      match floatQ r.cena with
      | some p => decide (fenceLo P ≤ p ∧ p ≤ fenceHi P)
      | none => false)
  else s1

end Automat

/-! ## scalanie.py — merge of per-region CSV files -/

namespace Scal

/-- Number of canonical data columns (`HEADERS`, 15 entries). -/
def headerCount : ℕ := 15

/-- The token cleaning applied before the numeric test in
`_merge_decimal_fields`: `strip()`, then remove `"` and spaces. -/
def cleanTok (s : String) : List Char :=
  (stripL s.data).filter (fun c => c ≠ '"' && c ≠ ' ')

/-- The `replace("0", "1")` performed by the source before `isdigit()`. -/
def zeroToOne (c : Char) : Char :=
  if c = '0' then '1' else c

/-- Python `str.isdigit()`: non-empty and all digit characters. -/
def isDigitTok (l : List Char) : Bool :=
  ¬ l.isEmpty && l.all pyIsDigit

/-- The source's condition for rejoining a split numeric pair: the first
cleaned token (with `0` mapped to `1`) is all digits, the second cleaned
token is all digits and at most 2 characters long. -/
def codeMergeCond (f g : String) : Bool :=
  isDigitTok ((cleanTok f).map zeroToOne)
    && isDigitTok (cleanTok g)
    && (cleanTok g).length ≤ 2

/-- Step 1 of `_merge_decimal_fields`: rejoin a split `cena` (fields 0/1). -/
def mergeStep1 (fields : List String) : List String :=
  match fields with
  | f0 :: f1 :: rest =>
    if (f0 :: f1 :: rest).length > headerCount ∧ codeMergeCond f0 f1 then
      (f0 ++ "," ++ f1) :: rest
    else f0 :: f1 :: rest
  | _ => fields

/-- Step 2 of `_merge_decimal_fields`: rejoin split `metry` (fields 2/3). -/
def mergeStep2 (fields : List String) : List String :=
  if fields.length > headerCount ∧ fields.length ≥ 4 then
    match fields with
    | a :: b :: f2 :: f3 :: rest =>
      if codeMergeCond f2 f3 then a :: b :: (f2 ++ "," ++ f3) :: rest
      else a :: b :: f2 :: f3 :: rest
    | _ => fields
  else fields

/-- `scalanie._merge_decimal_fields`. -/
def mergeDecimalFields (fields : List String) : List String :=
  mergeStep2 (mergeStep1 fields)

/-- The claim's description of the repair, written from its words: an
over-long line has its first two fields rejoined when the first token is
numeric and the second is numeric with at most 2 digits; if still over-long,
the same for fields three and four. -/
def claimNumericTok (s : String) : Bool :=
  isDigitTok (cleanTok s)

def claimRepairStep1 (fields : List String) : List String :=
  match fields with
  | f0 :: f1 :: rest =>
    if (f0 :: f1 :: rest).length > headerCount
        ∧ claimNumericTok f0 ∧ claimNumericTok f1 ∧ (cleanTok f1).length ≤ 2 then
      (f0 ++ "," ++ f1) :: rest
    else f0 :: f1 :: rest
  | _ => fields

def claimRepairStep2 (fields : List String) : List String :=
  match fields with
  | a :: b :: f2 :: f3 :: rest =>
    if (a :: b :: f2 :: f3 :: rest).length > headerCount
        ∧ claimNumericTok f2 ∧ claimNumericTok f3 ∧ (cleanTok f3).length ≤ 2 then
      a :: b :: (f2 ++ "," ++ f3) :: rest
    else a :: b :: f2 :: f3 :: rest
  | _ => fields

def claimRepair (fields : List String) : List String :=
  claimRepairStep2 (claimRepairStep1 fields)

/-- A merged-table row: the 15 data columns (positional, in `HEADERS` order)
plus the parse-error column `blad_parsowania`. -/
structure CsvRow where
  data : List String
  err : String
deriving DecidableEq, Repr

/-- `";".join(fields)`. -/
def joinSemi (fields : List String) : String :=
  String.intercalate ";" fields

/-- The error-column message for an unrepairable line
(`f"LINIA {line_no}: {raw}"`). -/
def errMsg (lineNo : ℕ) (fields : List String) : String :=
  "LINIA " ++ toString lineNo ++ ": " ++ joinSemi fields

/-- Python `str.startswith("ERROR")`. -/
def startsWithERROR (s : String) : Bool :=
  "ERROR".data.isPrefixOf s.data

/-- The per-line handling of a non-empty, non-header CSV line in
`read_csvs`: a single `ERROR…` field goes verbatim to the error column; any
other line is repaired with `_merge_decimal_fields`, and becomes a data row
exactly when 15 fields result — otherwise all data columns stay empty and the
(possibly partially repaired) fields are recorded in the error column. -/
def processLine (lineNo : ℕ) (fields : List String) : CsvRow :=
  match fields with
  | [f0] =>
    if startsWithERROR f0 then ⟨List.replicate headerCount "", f0⟩
    else
      let f := mergeDecimalFields [f0]
      if f.length = headerCount then ⟨f, ""⟩
      else ⟨List.replicate headerCount "", errMsg lineNo f⟩
  | _ =>
    let f := mergeDecimalFields fields
    if f.length = headerCount then ⟨f, ""⟩
    else ⟨List.replicate headerCount "", errMsg lineNo f⟩

end Scal

/-! ## Lemmas about the address resolver -/

namespace Czysz

theorem fillField_not_missing {cur : String} (vals : List String)
    (h : ¬ is_missing cur) : fillField cur vals = cur := by
  simp [fillField, h]

theorem fillField_ambig {cur : String} {vals : List String}
    (h : 2 ≤ (uniqueFirst vals).length) : fillField cur vals = cur := by
  unfold fillField
  split
  · split
    · rename_i v heq
      rw [heq] at h
      simp at h
    · rfl
  · rfl

theorem fillField_changed {cur : String} {vals : List String}
    (h : fillField cur vals ≠ cur) :
    is_missing cur ∧ ∃ v, uniqueFirst vals = [v] ∧ v ≠ "" ∧ fillField cur vals = v := by
  unfold fillField at h ⊢
  split at h
  · rename_i hmiss
    refine ⟨hmiss, ?_⟩
    split at h
    · rename_i v heq
      split at h
      · rename_i hv
        exact ⟨v, heq, hv, by simp [hmiss, heq, hv]⟩
      · exact absurd rfl h
    · exact absurd rfl h
  · exact absurd rfl h

theorem getAddr_fillMissingAll (col : AddrField) (r : Row) (s : List SrcRow) :
    getAddr col (fillMissingAll r s) = fillField (getAddr col r) (s.map (getSrc col)) := by
  cases col <;> rfl

theorem getAddr_modeStep_ne_mie (col : AddrField) (hcol : col ≠ .mie)
    (r : Row) (s : List SrcRow) : getAddr col (modeStep r s) = getAddr col r := by
  unfold modeStep
  split
  · split
    · cases col <;> first | rfl | exact absurd rfl hcol
    · rfl
  · rfl

theorem modeStep_mie_of_not_missing {r : Row} (s : List SrcRow)
    (h : ¬ is_missing r.mie) : getAddr .mie (modeStep r s) = r.mie := by
  unfold modeStep
  split
  · rename_i hg
    exact absurd hg.1 h
  · rfl

theorem getAddr_modeStep_guard (col : AddrField) (r : Row) (s : List SrcRow)
    (h : col = .mie → is_missing r.mie → is_missing r.gmi) :
    getAddr col (modeStep r s) = getAddr col r := by
  by_cases hcol : col = AddrField.mie
  · subst hcol
    unfold modeStep
    split
    · rename_i hg
      exact absurd (h rfl hg.1) hg.2
    · rfl
  · exact getAddr_modeStep_ne_mie col hcol r s

/-- Resolution never overwrites a present field: core lemma for
`_fill_from_source`. -/
theorem fill_from_source_preserves (r : Row) (df : List SrcRow)
    (a b c d e : List Char) (col : AddrField)
    (h : ¬ is_missing (getAddr col r)) :
    getAddr col (fill_from_source r df a b c d e) = getAddr col r := by
  unfold fill_from_source
  split
  · rfl
  · split
    · rfl
    · rw [getAddr_fillMissingAll]
      have hmode : getAddr col (modeStep r (narrowedSubset r df a b c d e))
          = getAddr col r := by
        by_cases hcol : col = AddrField.mie
        · subst hcol
          exact modeStep_mie_of_not_missing _ h
        · exact getAddr_modeStep_ne_mie col hcol r _
      rw [hmode]
      exact fillField_not_missing _ h

/-- Resolution never overwrites a present field: core lemma for
`_enrich_row`. -/
theorem enrich_row_preserves (r : Row) (teryt sad : List SrcRow) (col : AddrField)
    (h : ¬ is_missing (getAddr col r)) :
    getAddr col (enrich_row r teryt sad) = getAddr col r := by
  have aux : ∀ k1 k2 k3 k4 k5 : List Char,
      getAddr col
        (if ¬ sad.isEmpty ∧ anyMissing (fill_from_source r teryt k1 k2 k3 k4 k5) then
          fill_from_source (fill_from_source r teryt k1 k2 k3 k4 k5) sad k1 k2 k3 k4 k5
        else fill_from_source r teryt k1 k2 k3 k4 k5) = getAddr col r := by
    intro k1 k2 k3 k4 k5
    have h1 : getAddr col (fill_from_source r teryt k1 k2 k3 k4 k5) = getAddr col r :=
      fill_from_source_preserves r teryt k1 k2 k3 k4 k5 col h
    split
    · exact (fill_from_source_preserves _ sad k1 k2 k3 k4 k5 col
        (by rw [h1]; exact h)).trans h1
    · exact h1
  exact aux _ _ _ _ _

/-- C1 — address resolution (`_fill_from_source` and `_enrich_row`) never
changes an address field that is non-missing (non-empty and not the `---`
sentinel) in the input row: such a field keeps its identical value, and in
particular the set of non-missing address fields after resolution is a
superset of the set before. -/
theorem resolution_is_fill_only (r : Row) (df teryt sad : List SrcRow)
    (a b c d e : List Char) (col : AddrField)
    (h : ¬ is_missing (getAddr col r)) :
    getAddr col (fill_from_source r df a b c d e) = getAddr col r
    ∧ getAddr col (enrich_row r teryt sad) = getAddr col r
    ∧ ¬ is_missing (getAddr col (enrich_row r teryt sad)) := by
  refine ⟨fill_from_source_preserves r df a b c d e col h,
    enrich_row_preserves r teryt sad col h, ?_⟩
  rw [enrich_row_preserves r teryt sad col h]
  exact h

/-- Witness for C1 at a concrete row, reference table and field. -/
theorem resolution_is_fill_only_witness :
    ¬ is_missing (getAddr .mie ⟨"", "", "", "Kraków", "", "", "", ""⟩)
    ∧ getAddr .mie
        (enrich_row ⟨"", "", "", "Kraków", "", "", "", ""⟩
          [⟨"małopolskie", "Kraków", "Kraków", "Kraków", ""⟩] []) = "Kraków" :=
  ⟨by decide,
    (resolution_is_fill_only ⟨"", "", "", "Kraków", "", "", "", ""⟩
      [] [⟨"małopolskie", "Kraków", "Kraków", "Kraków", ""⟩] []
      [] [] [] [] [] .mie (by decide)).2.1⟩

/-- C2 counterexample — the mode-city heuristic (step 5a of
`_fill_from_source`) back-fills `Miejscowość` although the narrowed candidate
subset contains two distinct values for it: a row with municipality `G` and
missing city, against a table whose cities for `G` are `A`, `A`, `B`, gets
city `A` (the mode), so the output field differs from the (missing) input
field. -/
theorem ambiguous_city_is_filled_by_mode :
    is_missing (getAddr .mie (⟨"", "", "G", "", "", "", "", ""⟩ : Row))
    ∧ 2 ≤ (uniqueFirst ((narrowedSubset ⟨"", "", "G", "", "", "", "", ""⟩
        [⟨"", "", "G", "A", ""⟩, ⟨"", "", "G", "A", ""⟩, ⟨"", "", "G", "B", ""⟩]
        [] [] (norm "G") [] []).map (getSrc .mie))).length
    ∧ getAddr .mie (enrich_row ⟨"", "", "G", "", "", "", "", ""⟩
        [⟨"", "", "G", "A", ""⟩, ⟨"", "", "G", "A", ""⟩, ⟨"", "", "G", "B", ""⟩]
        []) = "A" := by
  decide

/-- C2 amended — outside the mode-city special case (that is, except for the
city field of a row whose municipality is present while its city is missing),
`_fill_from_source` back-fills an originally-missing field only when the
narrowed candidate subset carries exactly one distinct value, which is
non-empty; in particular, whenever the subset carries two or more distinct
values for the field, the output field equals the input field. -/
theorem ambiguity_safety_outside_mode_city (r : Row) (df : List SrcRow)
    (a b c d e : List Char) (col : AddrField)
    (hmode : col = .mie → is_missing r.mie → is_missing r.gmi) :
    (2 ≤ (uniqueFirst ((narrowedSubset r df a b c d e).map (getSrc col))).length →
      getAddr col (fill_from_source r df a b c d e) = getAddr col r)
    ∧ (getAddr col (fill_from_source r df a b c d e) ≠ getAddr col r →
      is_missing (getAddr col r)
      ∧ ∃ v, uniqueFirst ((narrowedSubset r df a b c d e).map (getSrc col)) = [v]
        ∧ v ≠ "" ∧ getAddr col (fill_from_source r df a b c d e) = v) := by
  have hstep : getAddr col (modeStep r (narrowedSubset r df a b c d e)) = getAddr col r :=
    getAddr_modeStep_guard col r _ hmode
  constructor
  · intro hambig
    unfold fill_from_source
    split
    · rfl
    · split
      · rfl
      · rw [getAddr_fillMissingAll, hstep]
        exact fillField_ambig hambig
  · intro hch
    unfold fill_from_source at hch ⊢
    by_cases h1 : df.isEmpty = true
    · rw [if_pos h1] at hch
      exact absurd rfl hch
    · rw [if_neg h1] at hch ⊢
      by_cases h2 : (narrowedSubset r df a b c d e).isEmpty = true
      · rw [if_pos h2] at hch
        exact absurd rfl hch
      · rw [if_neg h2] at hch ⊢
        rw [getAddr_fillMissingAll, hstep] at hch ⊢
        obtain ⟨hmiss, v, hu, hv, hval⟩ := fillField_changed hch
        exact ⟨hmiss, v, hu, hv, hval⟩

/-- Witness for the amended C2 at a concrete ambiguous subset: county stays
unfilled when the subset carries the two distinct county values `P`, `Q`. -/
theorem ambiguity_safety_outside_mode_city_witness :
    (2 ≤ (uniqueFirst ((narrowedSubset ⟨"", "", "", "", "", "", "", ""⟩
        [⟨"W", "P", "", "", ""⟩, ⟨"W", "Q", "", "", ""⟩] [] [] [] [] []).map
          (getSrc .pow))).length)
    ∧ getAddr .pow (fill_from_source ⟨"", "", "", "", "", "", "", ""⟩
        [⟨"W", "P", "", "", ""⟩, ⟨"W", "Q", "", "", ""⟩] [] [] [] [] []) = "" :=
  ⟨by decide,
    ((ambiguity_safety_outside_mode_city ⟨"", "", "", "", "", "", "", ""⟩
      [⟨"W", "P", "", "", ""⟩, ⟨"W", "Q", "", "", ""⟩] [] [] [] [] [] .pow
      (by intro h; exact absurd h (by decide))).1 (by decide))⟩

theorem narrowKeep_empty_iff (p : SrcRow → Bool) (s : List SrcRow) :
    narrowKeep p s = [] ↔ s = [] := by
  simp only [narrowKeep]
  split
  · exact Iff.rfl
  · rename_i h
    constructor
    · intro hf
      simp [hf] at h
    · intro hs
      subst hs
      simp at h

theorem narrowPow_empty_iff (k : List Char) (s : List SrcRow) :
    narrowPow k s = [] ↔ s = [] := by
  unfold narrowPow
  split
  · exact narrowKeep_empty_iff _ _
  · exact Iff.rfl

theorem narrowDzi_empty_iff (k : List Char) (s : List SrcRow) :
    narrowDzi k s = [] ↔ s = [] := by
  unfold narrowDzi
  split
  · exact narrowKeep_empty_iff _ _
  · exact Iff.rfl

theorem keepOrig_empty_iff (sub s : List SrcRow) (hs : s ≠ []) :
    (if ¬ sub.isEmpty = true then sub else s) = [] ↔ s = [] := by
  split
  · rename_i h
    exact iff_of_false (by simpa using h) hs
  · exact Iff.rfl

theorem narrowMie_empty_iff (mjn mjb : List Char) (s : List SrcRow) :
    narrowMie mjn mjb s = [] ↔ s = [] := by
  simp only [narrowMie]
  split
  · rename_i hg
    exact keepOrig_empty_iff _ s (by simpa using hg.2)
  · exact Iff.rfl

theorem narrowGmi_empty_iff (gmn gmb : List Char) (s : List SrcRow) :
    narrowGmi gmn gmb s = [] ↔ s = [] := by
  simp only [narrowGmi]
  split
  · rename_i hg
    exact keepOrig_empty_iff _ s (by simpa using hg.2)
  · exact Iff.rfl

/-- C3 counterexample — the province narrowing (step 1 of
`_fill_from_source`) has no emptiness guard: with a non-empty reference table
whose only province is `A`, a row with known province `B` narrows the
candidate subset to empty. -/
theorem province_narrowing_can_empty_subset :
    (norm "B" ≠ [])
    ∧ ([⟨"A", "", "", "", ""⟩] : List SrcRow) ≠ []
    ∧ narrowWoj (norm "B") [⟨"A", "", "", "", ""⟩] = []
    ∧ narrowedSubset ⟨"B", "", "", "", "", "", "", ""⟩ [⟨"A", "", "", "", ""⟩]
        (norm "B") [] [] [] [] = [] := by
  decide

/-- C3 amended — the no-empty-narrowing guard holds at the county, district,
city and municipality levels, but not at the province level: the final
candidate subset is empty exactly when the unguarded province narrowing
already made it empty. -/
theorem narrowing_empties_only_at_province (r : Row) (df : List SrcRow)
    (a b c d e : List Char) :
    narrowedSubset r df a b c d e = [] ↔ narrowWoj a df = [] := by
  unfold narrowedSubset
  rw [narrowGmi_empty_iff, narrowMie_empty_iff, narrowDzi_empty_iff, narrowPow_empty_iff]

end Czysz

/-! ## Theorems about the comparable selector, the IQR fence and the
numeric parser -/

namespace Automat

/-- Price-table data for the C4 counterexample: the only row matching
city + district + street (+ area window) lies in a different province than
the report row. -/
def c4tbl : List PlRow := [⟨"B", "p", "g", "C", "D", "S", "50", "100"⟩]

set_option maxHeartbeats 2000000 in
/-- C4 counterexample — with area 50, margin 15, and a report row in
province `A`, city `C`, district `D`, street `S`: the full match is empty
and a street was specified, and a comparable matching city + district +
street within the area window exists (in province `B`), yet the selector
returns empty, because every fallback of the source keeps the exact
province filter. -/
theorem street_fallback_not_tried_without_province :
    c4tbl.filter (fullPred 50 15 "A" "p" "g" "C" "D" "S") = []
    ∧ ("S" : String) ≠ ""
    ∧ c4tbl.filter (claimFb1Pred 50 15 "C" "D" "S")
        = [⟨"B", "p", "g", "C", "D", "S", "50", "100"⟩]
    ∧ selectRows c4tbl 50 15 "A" "p" "g" "C" "D" "S" = [] :=
  of_decide_eq_true (by with_unfolding_all rfl)

theorem cascade_if_normal_form (s1 s2 s3 : List PlRow) (dzl mia : String) :
    (if (if s1 = [] ∧ dzl ≠ "" then s2 else s1) = [] ∧ mia ≠ "" then s3
    else (if s1 = [] ∧ dzl ≠ "" then s2 else s1)) =
      (if s1 ≠ [] then s1
      else if dzl ≠ "" ∧ s2 ≠ [] then s2
      else if mia ≠ "" then s3 else []) := by
  by_cases h1 : s1 = [] <;> by_cases h2 : dzl = "" <;> by_cases h3 : s2 = [] <;>
    by_cases h4 : mia = "" <;> simp [h1, h2, h3, h4]

/-- C4 amended — the fallback cascade of `run_automat`, after an empty full
match for a row with a street, drops the county and municipality filters but
keeps the province filter (vacuous only when the row's province is blank):
street (+district if present) fallback first, then district, then city-only,
each still conjoined with the area window and the province equality; the
district fallback is consulted before the cascade can return empty. -/
theorem fallback_cascade_keeps_province (tbl : List PlRow) (A m : ℚ)
    (woj pow gmi mia dzl uli : String)
    (hfull : tbl.filter (fullPred A m woj pow gmi mia dzl uli) = [])
    (huli : uli ≠ "") :
    selectRows tbl A m woj pow gmi mia dzl uli =
      (if tbl.filter (fb1Pred A m woj mia dzl uli) ≠ [] then
        tbl.filter (fb1Pred A m woj mia dzl uli)
      else if dzl ≠ "" ∧ tbl.filter (fb2Pred A m woj mia dzl) ≠ [] then
        tbl.filter (fb2Pred A m woj mia dzl)
      else if mia ≠ "" then tbl.filter (fb3Pred A m woj mia)
      else []) := by
  simp only [selectRows]
  rw [hfull]
  rw [if_pos (show ([] : List PlRow) = [] ∧ uli ≠ "" from ⟨rfl, huli⟩)]
  exact cascade_if_normal_form _ _ _ dzl mia

/-- Price-table data for the C4 witness: street mismatch, so the cascade
falls through to the district fallback. -/
def c4wtbl : List PlRow := [⟨"A", "x", "y", "C", "D", "T", "50", "100"⟩]

/-- Witness for the amended C4 at a concrete table and row. -/
theorem fallback_cascade_keeps_province_witness :
    c4wtbl.filter (fullPred 50 15 "A" "p" "g" "C" "D" "S") = []
    ∧ ("S" : String) ≠ ""
    ∧ selectRows c4wtbl 50 15 "A" "p" "g" "C" "D" "S" =
        (if c4wtbl.filter (fb1Pred 50 15 "A" "C" "D" "S") ≠ [] then
          c4wtbl.filter (fb1Pred 50 15 "A" "C" "D" "S")
        else if ("D" : String) ≠ "" ∧ c4wtbl.filter (fb2Pred 50 15 "A" "C" "D") ≠ [] then
          c4wtbl.filter (fb2Pred 50 15 "A" "C" "D")
        else if ("C" : String) ≠ "" then c4wtbl.filter (fb3Pred 50 15 "A" "C")
        else []) :=
  ⟨of_decide_eq_true (by with_unfolding_all rfl), by decide,
    fallback_cascade_keeps_province c4wtbl 50 15 "A" "p" "g" "C" "D" "S"
      (of_decide_eq_true (by with_unfolding_all rfl)) (by decide)⟩

/-- C5 — every comparable selected by the direct (non-fallback) match of
`run_automat` has a parsed area within `[max(0, A−|m|), A+|m|]`; equivalently
no price-table row whose area lies outside the window (or fails to parse) is
ever selected by the direct path. -/
theorem direct_match_area_window (tbl : List PlRow) (A m : ℚ)
    (woj pow gmi mia dzl uli : String) (r : PlRow)
    (hr : r ∈ tbl.filter (fullPred A m woj pow gmi mia dzl uli)) :
    ∃ a, floatQ r.metry = some a ∧ max 0 (A - |m|) ≤ a ∧ a ≤ A + |m| := by
  rw [List.mem_filter] at hr
  have hp := hr.2
  unfold fullPred at hp
  simp only [Bool.and_eq_true] at hp
  have ha := hp.1.1.1.1.1.1
  unfold areaOkB at ha
  rcases hfl : floatQ r.metry with _ | a
  · rw [hfl] at ha
    simp at ha
  · rw [hfl] at ha
    simp only [decide_eq_true_eq] at ha
    exact ⟨a, rfl, by simpa [loQ] using ha.1, by simpa [hiQ] using ha.2⟩

/-- Price-table data for the C5 witness. -/
def c5tbl : List PlRow := [⟨"w", "p", "g", "c", "d", "u", "50", "100"⟩]

/-- Witness for C5 at a concrete table and row. -/
theorem direct_match_area_window_witness :
    (⟨"w", "p", "g", "c", "d", "u", "50", "100"⟩ : PlRow)
        ∈ c5tbl.filter (fullPred 50 15 "w" "p" "g" "c" "d" "u")
    ∧ ∃ a, floatQ (PlRow.metry ⟨"w", "p", "g", "c", "d", "u", "50", "100"⟩) = some a
        ∧ max 0 ((50 : ℚ) - |(15 : ℚ)|) ≤ a ∧ a ≤ (50 : ℚ) + |(15 : ℚ)| :=
  ⟨of_decide_eq_true (by with_unfolding_all rfl),
    direct_match_area_window c5tbl 50 15 "w" "p" "g" "c" "d" "u" _
      (of_decide_eq_true (by with_unfolding_all rfl))⟩

/-- C6 — the outlier step of `run_automat`, acting on the selection after
non-numeric prices are dropped: with fewer than 4 numeric samples it is the
identity; with at least 4 it retains exactly the rows whose price lies within
`[Q1 − 1.5·IQR, Q3 + 1.5·IQR]`, the quartiles being taken over the pre-filter
numeric sample list. -/
theorem iqr_filter_fence (sel : List PlRow) :
    ((pricesOf (dropBadPrices sel)).length < 4 → iqrStep sel = dropBadPrices sel)
    ∧ (4 ≤ (pricesOf (dropBadPrices sel)).length →
      (∀ r ∈ iqrStep sel, r ∈ dropBadPrices sel)
      ∧ (∀ r ∈ dropBadPrices sel,
        (r ∈ iqrStep sel ↔ ∃ p, floatQ r.cena = some p
          ∧ fenceLo (pricesOf (dropBadPrices sel)) ≤ p
          ∧ p ≤ fenceHi (pricesOf (dropBadPrices sel))))) := by
  constructor
  · intro hlt
    simp only [iqrStep]
    rw [if_neg (by omega)]
  · intro hge
    simp only [iqrStep]
    rw [if_pos hge]
    constructor
    · intro r hr
      exact (List.mem_filter.mp hr).1
    · intro r hr
      rw [List.mem_filter]
      constructor
      · rintro ⟨_, hpred⟩
        rcases hfl : floatQ r.cena with _ | p
        · rw [hfl] at hpred
          simp at hpred
        · rw [hfl] at hpred
          simp only [decide_eq_true_eq] at hpred
          exact ⟨p, rfl, hpred.1, hpred.2⟩
      · rintro ⟨p, hfl, hlo, hhi⟩
        refine ⟨hr, ?_⟩
        rw [hfl]
        simp [hlo, hhi]

/-- Price data for the C6 witness: the spec's scenario sample
`[10000, 10500, 10800, 11000, 50000]`, whose IQR fence removes `50000`. -/
def c6tbl : List PlRow :=
  [⟨"", "", "", "", "", "", "", "10000"⟩, ⟨"", "", "", "", "", "", "", "10500"⟩,
    ⟨"", "", "", "", "", "", "", "10800"⟩, ⟨"", "", "", "", "", "", "", "11000"⟩,
    ⟨"", "", "", "", "", "", "", "50000"⟩]

/-- Witness for C6 at a concrete 5-sample selection. -/
theorem iqr_filter_fence_witness :
    4 ≤ (pricesOf (dropBadPrices c6tbl)).length
    ∧ (⟨"", "", "", "", "", "", "", "50000"⟩ : PlRow) ∈ dropBadPrices c6tbl
    ∧ ((⟨"", "", "", "", "", "", "", "50000"⟩ : PlRow) ∈ iqrStep c6tbl
      ↔ ∃ p, floatQ (PlRow.cena ⟨"", "", "", "", "", "", "", "50000"⟩) = some p
        ∧ fenceLo (pricesOf (dropBadPrices c6tbl)) ≤ p
        ∧ p ≤ fenceHi (pricesOf (dropBadPrices c6tbl))) :=
  ⟨of_decide_eq_true (by with_unfolding_all rfl),
    of_decide_eq_true (by with_unfolding_all rfl),
    ((iqr_filter_fence c6tbl).2 (of_decide_eq_true (by with_unfolding_all rfl))).2 _
      (of_decide_eq_true (by with_unfolding_all rfl))⟩

set_option maxRecDepth 2000 in
set_option maxHeartbeats 1000000 in
/-- C7 — the numeric parser `_float` / `_to_float_maybe` tolerates unit
suffixes, space thousands separators and decimal commas, and maps unparsable
strings (such as the `---` sentinel) to `none`, never to zero:
`"11 999 zł/m²"` parses to `11999`, `"123900,90"` parses to `123900.90`
(the rational `1239009/10`), and `"---"` parses to `none`. -/
theorem float_parsing_examples :
    floatQ "11 999 zł/m²" = some 11999
    ∧ floatQ "123900,90" = some (Rat.divInt 1239009 10)
    ∧ floatQ "---" = none
    ∧ floatQ "---" ≠ some 0 :=
  ⟨by decide, by with_unfolding_all rfl, by decide, by decide⟩

end Automat

/-! ## Theorems about `clean_report`: placeholder marking and upper-casing -/

namespace Czysz

theorem pyUpper_space (c : Char) : isSpaceChar (pyUpper c) = isSpaceChar c :=
  pyUpper_spec (fun a b => isSpaceChar b = isSpaceChar a) (by decide) (fun _ => rfl) c

theorem pyUpper_dash (c : Char) : pyUpper c = '-' ↔ c = '-' :=
  pyUpper_spec (fun a b => b = '-' ↔ a = '-') (by decide) (fun _ => Iff.rfl) c

theorem stripL_map_pyUpper (l : List Char) :
    stripL (l.map pyUpper) = (stripL l).map pyUpper := by
  unfold stripL
  have hcomp : isSpaceChar ∘ pyUpper = isSpaceChar := by
    funext c
    exact pyUpper_space c
  rw [List.dropWhile_map, hcomp, ← List.map_reverse, List.dropWhile_map, hcomp,
    ← List.map_reverse]

theorem map_pyUpper_eq_dashes (l : List Char) :
    l.map pyUpper = ['-', '-', '-'] ↔ l = ['-', '-', '-'] := by
  constructor
  · intro h
    have hlen : l.length = 3 := by simpa using congrArg List.length h
    match l, hlen with
    | [a, b, c], _ =>
      simp only [List.map_cons, List.map_nil, List.cons.injEq, and_true] at h
      rw [(pyUpper_dash a).mp h.1, (pyUpper_dash b).mp h.2.1, (pyUpper_dash c).mp h.2.2]
  · intro h
    rw [h]
    decide

theorem is_missing_upperStr (s : String) : is_missing (upperStr s) ↔ is_missing s := by
  show stripL (s.data.map pyUpper) = [] ∨ stripL (s.data.map pyUpper) = ['-', '-', '-']
    ↔ is_missing s
  rw [stripL_map_pyUpper]
  unfold is_missing
  constructor
  · rintro (h | h)
    · exact Or.inl (List.map_eq_nil_iff.mp h)
    · exact Or.inr ((map_pyUpper_eq_dashes _).mp h)
  · rintro (h | h)
    · rw [h]
      exact Or.inl rfl
    · rw [h]
      exact Or.inr (by decide)

theorem anyMissing_upperRowAddr (r : Row) :
    anyMissing (upperRowAddr r) ↔ anyMissing r := by
  unfold anyMissing upperRowAddr
  simp only [is_missing_upperStr]

theorem anyMissing_placeholderRow (x : Row) :
    anyMissing (placeholderRow x) ↔ anyMissing x := by
  unfold placeholderRow
  split <;> exact Iff.rfl

/-- C8 — after resolution has consulted all reference sources, every report
row that still misses any of the five address fields leaves `clean_report`
with all three derived value columns set verbatim to the manual-review
placeholder `Proszę dopisz manualnie`; no computed number survives in them. -/
theorem unresolved_rows_get_placeholder (teryt sad : List SrcRow) (tbl : List Row)
    (r : Row) (hr : r ∈ cleanProcess teryt sad tbl) (hm : anyMissing r) :
    r.v1 = placeholder ∧ r.v2 = placeholder ∧ r.v3 = placeholder := by
  obtain ⟨r0, _, rfl⟩ := List.mem_map.mp hr
  unfold cleanPerRow at hm ⊢
  have hm' : anyMissing (enrich_row (blankRow r0) teryt sad) :=
    (anyMissing_placeholderRow _).mp ((anyMissing_upperRowAddr _).mp hm)
  have hplace : placeholderRow (enrich_row (blankRow r0) teryt sad)
      = { enrich_row (blankRow r0) teryt sad with
          v1 := placeholder, v2 := placeholder, v3 := placeholder } := by
    unfold placeholderRow
    rw [if_pos hm']
  rw [hplace]
  exact ⟨rfl, rfl, rfl⟩

/-- Report data for the C8 witness: a row with only a province. -/
def c8tbl : List Row := [⟨"X", "", "", "", "", "5", "6", "7"⟩]

/-- Witness for C8 at a concrete report row with no usable references. -/
theorem unresolved_rows_get_placeholder_witness :
    (⟨"X", "", "", "", "", placeholder, placeholder, placeholder⟩ : Row)
        ∈ cleanProcess [] [] c8tbl
    ∧ anyMissing ⟨"X", "", "", "", "", placeholder, placeholder, placeholder⟩
    ∧ (Row.v1 ⟨"X", "", "", "", "", placeholder, placeholder, placeholder⟩ = placeholder
      ∧ Row.v2 ⟨"X", "", "", "", "", placeholder, placeholder, placeholder⟩ = placeholder
      ∧ Row.v3 ⟨"X", "", "", "", "", placeholder, placeholder, placeholder⟩ = placeholder) :=
  ⟨by decide, by decide,
    unresolved_rows_get_placeholder [] [] c8tbl _ (by decide) (by decide)⟩

/-- C10 — `clean_report` upper-cases every value of the five address columns
after the per-row enrichment: a present (non-missing) address value appears
in the written report as its upper-case image, even though the resolution
step itself leaves present values unchanged. -/
theorem addresses_upper_cased (teryt sad : List SrcRow) (r : Row) (col : AddrField)
    (h : ¬ is_missing (getAddr col r)) :
    getAddr col (cleanPerRow teryt sad r) = upperStr (getAddr col r) := by
  unfold cleanPerRow
  have hblank : getAddr col (blankRow r) = getAddr col r := by
    cases col <;> simp only [getAddr, blankRow] at h ⊢ <;> rw [if_neg h]
  have henr : getAddr col (enrich_row (blankRow r) teryt sad) = getAddr col r := by
    rw [enrich_row_preserves _ teryt sad col (by rw [hblank]; exact h), hblank]
  have hv : ∀ x : Row,
      getAddr col { x with v1 := placeholder, v2 := placeholder, v3 := placeholder }
        = getAddr col x := by
    intro x
    cases col <;> rfl
  have hph : getAddr col (placeholderRow (enrich_row (blankRow r) teryt sad))
      = getAddr col r := by
    unfold placeholderRow
    split
    · rw [hv]
      exact henr
    · exact henr
  have hupper : ∀ x : Row, getAddr col (upperRowAddr x) = upperStr (getAddr col x) := by
    intro x
    cases col <;> rfl
  rw [hupper, hph]

/-- Witness for C10: the present value `Warszawa` is rewritten `WARSZAWA`. -/
theorem addresses_upper_cased_witness :
    ¬ is_missing (getAddr .mie ⟨"", "", "", "Warszawa", "", "", "", ""⟩)
    ∧ getAddr .mie (cleanPerRow [] [] ⟨"", "", "", "Warszawa", "", "", "", ""⟩)
        = "WARSZAWA" :=
  ⟨by decide,
    (addresses_upper_cased [] [] ⟨"", "", "", "Warszawa", "", "", "", ""⟩ .mie
      (by decide)).trans (by decide)⟩

end Czysz

/-! ## Theorems about the CSV merge repair -/

namespace Scal

theorem pyIsDigit_zeroToOne (c : Char) : pyIsDigit (zeroToOne c) = pyIsDigit c := by
  unfold zeroToOne
  split
  · rename_i h
    rw [h]
    decide
  · rfl

theorem isEmpty_map {α β : Type} (f : α → β) (l : List α) :
    (l.map f).isEmpty = l.isEmpty := by
  cases l <;> rfl

theorem isDigitTok_map_zeroToOne (l : List Char) :
    isDigitTok (l.map zeroToOne) = isDigitTok l := by
  unfold isDigitTok
  rw [isEmpty_map, List.all_map]
  have hcomp : pyIsDigit ∘ zeroToOne = pyIsDigit := funext pyIsDigit_zeroToOne
  rw [hcomp]

/-- The source's `replace("0","1").isdigit()` test on the first token agrees
with the claim's plain "is numeric" reading. -/
theorem codeMergeCond_iff (f g : String) :
    codeMergeCond f g = true
      ↔ claimNumericTok f = true ∧ claimNumericTok g = true
        ∧ (cleanTok g).length ≤ 2 := by
  unfold codeMergeCond claimNumericTok
  rw [isDigitTok_map_zeroToOne]
  simp [and_assoc]

theorem mergeStep1_eq_claim (fields : List String) :
    mergeStep1 fields = claimRepairStep1 fields := by
  unfold mergeStep1 claimRepairStep1
  match fields with
  | [] => rfl
  | [f0] => rfl
  | f0 :: f1 :: rest =>
    dsimp only
    by_cases hlen : (f0 :: f1 :: rest).length > headerCount
    · by_cases hc : codeMergeCond f0 f1 = true
      · obtain ⟨h1, h2, h3⟩ := (codeMergeCond_iff f0 f1).mp hc
        rw [if_pos ⟨hlen, hc⟩, if_pos ⟨hlen, h1, h2, h3⟩]
      · rw [if_neg (fun hx => hc hx.2),
          if_neg (fun hx => hc ((codeMergeCond_iff f0 f1).mpr ⟨hx.2.1, hx.2.2.1, hx.2.2.2⟩))]
    · rw [if_neg (fun hx => hlen hx.1), if_neg (fun hx => hlen hx.1)]

theorem mergeStep2_eq_claim (fields : List String) :
    mergeStep2 fields = claimRepairStep2 fields := by
  unfold mergeStep2 claimRepairStep2
  match fields with
  | [] => rfl
  | [a] => rfl
  | [a, b] => rfl
  | [a, b, c] => rfl
  | a :: b :: f2 :: f3 :: rest =>
    dsimp only
    by_cases hlen : (a :: b :: f2 :: f3 :: rest).length > headerCount
    · rw [if_pos ⟨hlen, by simp⟩]
      by_cases hc : codeMergeCond f2 f3 = true
      · obtain ⟨h1, h2, h3⟩ := (codeMergeCond_iff f2 f3).mp hc
        rw [if_pos hc, if_pos ⟨hlen, h1, h2, h3⟩]
      · rw [if_neg hc,
          if_neg (fun hx => hc ((codeMergeCond_iff f2 f3).mpr ⟨hx.2.1, hx.2.2.1, hx.2.2.2⟩))]
    · rw [if_neg (fun hx => hlen hx.1), if_neg (fun hx => hlen hx.1)]

/-- Line data for the C9 counterexample: 17 fields whose leading pair is a
split decimal but whose third/fourth fields are not numeric. -/
def c9line : List String :=
  ["1", "23", "x", "y", "f5", "f6", "f7", "f8", "f9", "f10", "f11", "f12",
    "f13", "f14", "f15", "f16", "f17"]

/-- C9 counterexample — on a 17-field line whose first two fields are a split
price but which stays over-long after repair, `read_csvs` records the
semicolon-joined fields *after* the partial repair (`1,23;x;…`) in the error
column, not the raw line (`1;23;x;…`): the claim's "raw line recorded"
fails. -/
theorem error_column_records_repaired_fields :
    c9line.length = 17
    ∧ processLine 1 c9line
        = ⟨List.replicate 15 "",
            "LINIA 1: 1,23;x;y;f5;f6;f7;f8;f9;f10;f11;f12;f13;f14;f15;f16;f17"⟩
    ∧ "LINIA 1: " ++ joinSemi c9line
        = "LINIA 1: 1;23;x;y;f5;f6;f7;f8;f9;f10;f11;f12;f13;f14;f15;f16;f17"
    ∧ ("LINIA 1: 1,23;x;y;f5;f6;f7;f8;f9;f10;f11;f12;f13;f14;f15;f16;f17" : String)
        ≠ "LINIA 1: 1;23;x;y;f5;f6;f7;f8;f9;f10;f11;f12;f13;f14;f15;f16;f17" := by
  decide

/-- C9 amended — an over-long CSV data line is repaired by rejoining the
first two fields and, if still over-long, fields three and four, exactly when
the first token is numeric and the second is numeric with at most 2 digits
(the source's `replace("0","1").isdigit()` test is equivalent to plain
`isdigit`); a line that does not have exactly 15 fields after the attempted
repair is emitted with all 15 data columns empty and the semicolon-joined
fields as they stand after the attempted repair (not necessarily the
original raw line) recorded in the dedicated error column — it is never
mis-aligned into the data columns. -/
theorem merge_repair_spec (n : ℕ) (fields : List String)
    (herr : ∀ f0, fields = [f0] → startsWithERROR f0 = false) :
    mergeDecimalFields fields = claimRepair fields
    ∧ processLine n fields =
      (if (mergeDecimalFields fields).length = headerCount
        then ⟨mergeDecimalFields fields, ""⟩
        else ⟨List.replicate headerCount "", errMsg n (mergeDecimalFields fields)⟩) := by
  constructor
  · unfold mergeDecimalFields claimRepair
    rw [mergeStep1_eq_claim, mergeStep2_eq_claim]
  · match fields with
    | [] => rfl
    | [f0] =>
      have h := herr f0 rfl
      simp only [processLine, h, Bool.false_eq_true, if_false]
    | f0 :: f1 :: rest => rfl

/-- Line data for the C9 witness: a 16-field line whose leading split price
is repaired into exactly 15 fields. -/
def c9wline : List String :=
  ["9", "50", "40", "2", "x5", "x6", "x7", "x8", "x9", "x10", "x11", "x12",
    "x13", "x14", "x15", "x16"]

/-- Witness for the amended C9 at a concrete repairable line. -/
theorem merge_repair_spec_witness :
    mergeDecimalFields c9wline = claimRepair c9wline
    ∧ processLine 3 c9wline =
      (if (mergeDecimalFields c9wline).length = headerCount
        then ⟨mergeDecimalFields c9wline, ""⟩
        else ⟨List.replicate headerCount "", errMsg 3 (mergeDecimalFields c9wline)⟩) :=
  merge_repair_spec 3 c9wline (by
    intro f0 h
    simp [c9wline] at h)

end Scal

end PriceBot
